import Mathlib

/-!
Shallow embedding of the load-generation harness (`example_list_actions.go`
plus the older driver kept as an unnamed source file).  The loop structure of
the benchmark orchestration is translated directly; the network client is
abstracted by oracles giving the outcome of each activation fetch or of each
concurrent invoke+retrieve task.
-/

namespace OwBench

/-- HTTP-level response object accompanying an activation fetch
(`oc.cli.Activations.Get`); `GetResult` only reads its `Status` string. -/
structure ActivationResp where
  status : String
deriving DecidableEq

/-- Outcome of one `oc.cli.Activations.Get` call: an optional response object
(a `nil` response pointer is `none`) and an optional error (a `nil` error is
`none`). -/
structure FetchOutcome where
  resp : Option ActivationResp
  err : Option String
deriving DecidableEq

/-- Observable outcome of a `GetResult` run: how many fetches were issued,
how many 2-second inter-attempt sleeps happened, whether the
"exhausted retries" line was logged, and the final response/error pair. -/
structure GetResultFinal where
  fetches : Nat
  sleeps : Nat
  exhausted : Bool
  resp : Option ActivationResp
  err : Option String
deriving DecidableEq

/-- Retry loop of `OwClient.GetResult` (source lines 103-115).  `rc` is the
value of `retry_count` as the iteration begins; the Go code decrements it
first and, after the in-loop fetch, breaks when the decremented value is
`<= 0` - starting from the entry value 18 that happens exactly when
`rc ≤ 1`.  `idx` numbers the fetches, `fetch` is the oracle giving each
fetch's outcome.  Reading `resp.Status` on an absent (`nil`) response is the
undefined access and yields `none` for the whole run.  On a non-404 status
the loop breaks returning the current error; on 404 it refetches, and either
breaks with the "exhausted retries" log (when the budget is spent) or sleeps
2 seconds and loops. -/
def getResultLoop (fetch : Nat → FetchOutcome) (rc idx : Nat)
    (resp : Option ActivationResp) (err : Option String)
    (fetches sleeps : Nat) : Option GetResultFinal :=
  match err with
  | none => some ⟨fetches, sleeps, false, resp, none⟩
  | some e2 =>
    match resp with
    | none => none
    | some r =>
      if r.status = "404 Not Found" then
        match rc with
        | 0 => some ⟨fetches + 1, sleeps, true, (fetch idx).resp, (fetch idx).err⟩
        | 1 => some ⟨fetches + 1, sleeps, true, (fetch idx).resp, (fetch idx).err⟩
        | n + 2 =>
            getResultLoop fetch (n + 1) (idx + 1) (fetch idx).resp (fetch idx).err
              (fetches + 1) (sleeps + 1)
      else some ⟨fetches, sleeps, false, some r, some e2⟩
termination_by rc

/-- `OwClient.GetResult` (source lines 99-118): one initial fetch, then the
retry loop entered with `retry_count = 18`. -/
def GetResult (fetch : Nat → FetchOutcome) : Option GetResultFinal :=
  getResultLoop fetch 18 1 (fetch 0).resp (fetch 0).err 1 0

/-- Shared-state effects that a task of `send_con_req` can have (source lines
140-147): `handle_error` prints a non-nil error; nothing in that task body
writes any shared error flag.  (Contrast the task body of
`benchmark_step_warm_lat`, lines 200-210, which additionally stores 1 into
`has_error` - that write is the `setErrorSignal` effect.) -/
inductive TaskEff
  | printedErr (id : Nat)
  | setErrorSignal
deriving DecidableEq

/-- `handle_error` (source lines 127-133): returns false on a nil error,
otherwise prints the error and returns true. -/
def handle_error (err : Option String) : Bool :=
  match err with
  | none => false
  | some _ => true

/-- Effects of task `id` of `send_con_req`: the combined error of its
`InvokeAction` / `GetResult` pair is abstracted by `err`; `handle_error`
prints exactly when it is non-nil, and no error flag is written. -/
def send_task_effs (id : Nat) (err : Option String) : List TaskEff :=
  if handle_error err then [TaskEff.printedErr id] else []

/-- `send_con_req` (source lines 135-151): launches `num` tasks with ids
`0 .. num-1` and blocks on the `WaitGroup` barrier; the round's shared-state
effects are a linearisation of the tasks' effects. -/
def send_con_req_effs (num : Nat) (taskErr : Nat → Option String) : List TaskEff :=
  (List.range num).flatMap (fun id => send_task_effs id (taskErr id))

/-- Whether one task effect is the store of 1 into a shared error flag. -/
def is_set_error_signal : TaskEff → Bool
  | TaskEff.setErrorSignal => true
  | TaskEff.printedErr _ => false

/-- Value of a boolean error flag after a list of task effects has been
applied to it: `setErrorSignal` stores true, nothing ever clears it. -/
def error_signal_after (init : Bool) (effs : List TaskEff) : Bool :=
  init || effs.any is_set_error_signal

/-- Fuelled loop of `warm_up` (source lines 157-163): collects the `rate`
values passed to `send_con_req`; `rate` starts at `start` and advances by
`step` while `rate < bound`.  The fuel only has to dominate the iteration
count: whenever `1 ≤ step`, any `fuel ≥ (bound - rate).toNat` computes the
loop's full trace. -/
def warm_up_rates_aux (step bound : Int) : Nat → Int → List Int
  | 0, _ => []
  | fuel + 1, rate =>
      if rate < bound then rate :: warm_up_rates_aux step bound fuel (rate + step)
      else []

/-- Rates at which `warm_up start step target` executes `send_con_req`
(the loop bound is `target + 2*step`). -/
def warm_up_rates (start step target : Int) : List Int :=
  warm_up_rates_aux step (target + 2 * step) (target + 2 * step - start).toNat start

/-- Step loop of `benchmark_step_warm_lat` (source lines 183-222), at step
granularity.  Each entry is `(target_rate, has_error at step entry)`.
`errAt r` abstracts whether any task dispatched during the measurement at
rate `r` fails (and hence stores 1 into `has_error`); `warm_up` tasks never
write the flag.  After the per-step `wg.Wait()` barrier the loop breaks when
`has_error > 0`.  The loop is fuel-indexed; the properties proved below hold
for every fuel, hence for the value of the source loop. -/
def sweep_loop (endr step : Int) (errAt : Int → Bool) :
    Nat → Int → Bool → List (Int × Bool)
  | 0, _, _ => []
  | fuel + 1, tr, sig =>
      if tr ≤ endr then
        (tr, sig) ::
          (if sig || errAt tr then []
           else sweep_loop endr step errAt fuel (tr + step) (sig || errAt tr))
      else []

/-- One observable step of `benchmark_warm_at_fixed_provision`: either a
`send_con_req` burst of a given size or a cooldown sleep in minutes. -/
inductive BenchEvent
  | burst (n : Nat)
  | sleepMin (m : Nat)
deriving DecidableEq

/-- Inner `tc` loop of `benchmark_warm_at_fixed_provision` (source lines
228-236): for `tc` counting down to 1, one warm burst of size `pc` followed
by the `rep_time` loop's 3 test bursts of size `tc`. -/
def tc_loop (pc : Nat) : Nat → List BenchEvent
  | 0 => []
  | tc + 1 =>
      BenchEvent.burst pc ::
        (List.replicate 3 (BenchEvent.burst (tc + 1)) ++ tc_loop pc tc)

/-- `benchmark_warm_at_fixed_provision pc_right keep_warm_time` (source lines
225-239): the `pc` loop counts down from `pc_right`, and after each level's
`tc` loop the function sleeps `keep_warm_time` minutes.  No error flag is
declared or read anywhere in this function, so its trace takes no error
oracle: the schedule is the same whatever the tasks do. -/
def bwfp_trace : Nat → Nat → List BenchEvent
  | 0, _ => []
  | pc + 1, cool =>
      tc_loop (pc + 1) (pc + 1) ++ (BenchEvent.sleepMin cool :: bwfp_trace pc cool)

/-- The descending list `[n, n-1, ..., 1]`, used to phrase the spec's
"stepping down from `n` to 1". -/
def countdown : Nat → List Nat
  | 0 => []
  | n + 1 => (n + 1) :: countdown n

/-- Modelled from the spec sentence for the provisioned-concurrency sweep:
for `pc` stepping down from `maxP` to 1 and `tc` stepping down from `pc` to
1, one warm burst of size `pc` then 3 test bursts of size `tc`, and a
cooldown sleep after the `tc` values of a level are exhausted. -/
def bwfp_spec_trace (maxP cool : Nat) : List BenchEvent :=
  (countdown maxP).flatMap (fun pc =>
    ((countdown pc).flatMap
        (fun tc => BenchEvent.burst pc :: List.replicate 3 (BenchEvent.burst tc)))
      ++ [BenchEvent.sleepMin cool])

/-- Sizes of the `send_con_req` rounds of a trace, in execution order. -/
def bursts (tr : List BenchEvent) : List Nat :=
  tr.filterMap (fun e =>
    match e with
    | BenchEvent.burst n => some n
    | BenchEvent.sleepMin _ => none)

/-- The halting property the spec claims for the provisioned sweep, with
`roundErr i` telling whether round `i` contained a failing task (which per
the spec sets ErrorSignal): no round may begin once an earlier round has
failed. -/
def halts_after_error (roundErr : Nat → Bool) (bs : List Nat) : Bool :=
  (List.range bs.length).all (fun i => !((List.range i).any roundErr))

/-- Retry loop of the older driver's `main` (unnamed source file, lines
169-188): `has_error` enters the loop as 1; each round first resets it to 0,
dispatches its 128 tasks (abstracted by `roundErr k`: whether any task of
round `k` fails and stores 1) and waits on the barrier.  Each entry records
`(round index, has_error value when the round's first task is dispatched)`;
the reset at the top of the body makes that value 0. -/
def retry_loop (roundErr : Nat → Bool) : Nat → Nat → Bool → List (Nat × Bool)
  | 0, _, _ => []
  | fuel + 1, k, has_err =>
      if has_err then (k, false) :: retry_loop roundErr fuel (k + 1) (roundErr k)
      else []

/-- One observable step of `main` (source lines 241-316). -/
inductive MainStep
  | printedErr (e : String)
  | exitProc (code : Int)
  | runBench (action : String) (pc_right keep_warm : Nat)
deriving DecidableEq

/-- `main` (source lines 241-316): a `client.Init()` error goes through
`handle_error` (which prints it) and the process exits with code -1 before
any benchmark; the return value of `req.Load "tflm_mb_req.json"` is
discarded by the source (the call is a bare statement), after which the two
provisioned-concurrency benchmark runs start unconditionally. -/
def main_trace (initErr _loadErr : Option String) : List MainStep :=
  match initErr with
  | some e => [MainStep.printedErr e, MainStep.exitProc (-1)]
  | none =>
      [MainStep.runBench "crtw-tflm-mb-4" 20 2,
       MainStep.runBench "crtw-tflm-mb-1" 20 2]

/-! ### Helper lemmas -/

/-- The `tc` loop refines the spec's nested "stepping down" description. -/
theorem tc_loop_eq_spec (pc n : Nat) :
    tc_loop pc n =
      (countdown n).flatMap
        (fun tc => BenchEvent.burst pc :: List.replicate 3 (BenchEvent.burst tc)) := by
  induction n with
  | zero => rfl
  | succ n ih => simp [tc_loop, countdown, ih]

/-- Every entry of the rate-sweep trace except possibly the last comes from a
step in which no task failed: the sweep never proceeds past an error. -/
theorem sweep_loop_no_error_before_last (endr step : Int) (errAt : Int → Bool) :
    ∀ (fuel : Nat) (tr : Int) (sig : Bool) (i : Nat) (p : Int × Bool),
      (sweep_loop endr step errAt fuel tr sig)[i]? = some p →
      i + 1 < (sweep_loop endr step errAt fuel tr sig).length →
      errAt p.1 = false := by
  intro fuel
  induction fuel with
  | zero => intro tr sig i p hp hlen; simp [sweep_loop] at hp
  | succ f ih =>
      intro tr sig i p hp hlen
      by_cases htr : tr ≤ endr
      · simp only [sweep_loop, if_pos htr] at hp hlen
        by_cases hsig : (sig || errAt tr) = true
        · rw [if_pos hsig] at hp hlen
          simp at hlen
        · rw [if_neg hsig] at hp hlen
          cases i with
          | zero =>
              simp at hp
              have : errAt tr = false := by
                cases h1 : errAt tr
                · rfl
                · simp [h1] at hsig
              rw [← hp]
              exact this
          | succ j =>
              simp at hp hlen
              exact ih (tr + step) (sig || errAt tr) j p hp (by omega)
      · simp [sweep_loop, htr] at hp

/-- In the rate sweep, the `has_error` flag recorded at the entry of every
executed step is false (it is initialised to 0 and any step that sets it
breaks the sweep before another step starts). -/
theorem sweep_loop_sig_false (endr step : Int) (errAt : Int → Bool) :
    ∀ (fuel : Nat) (tr : Int) (p : Int × Bool),
      p ∈ sweep_loop endr step errAt fuel tr false → p.2 = false := by
  intro fuel
  induction fuel with
  | zero => intro tr p hp; simp [sweep_loop] at hp
  | succ f ih =>
      intro tr p hp
      by_cases htr : tr ≤ endr
      · simp only [sweep_loop, if_pos htr, Bool.false_or] at hp
        rcases List.mem_cons.mp hp with h | h
        · rw [h]
        · by_cases herr : errAt tr = true
          · simp [herr] at h
          · rw [if_neg herr] at h
            have herr2 : errAt tr = false := by
              cases h1 : errAt tr
              · rfl
              · exact absurd h1 herr
            rw [herr2] at h
            exact ih (tr + step) p h
      · simp [sweep_loop, htr] at hp

/-- In the older driver's retry loop, the flag value recorded at the first
dispatch of each round is false: the round body resets it before dispatch. -/
theorem retry_loop_sig_false (roundErr : Nat → Bool) :
    ∀ (fuel k : Nat) (sig : Bool) (q : Nat × Bool),
      q ∈ retry_loop roundErr fuel k sig → q.2 = false := by
  intro fuel
  induction fuel with
  | zero => intro k sig q hq; simp [retry_loop] at hq
  | succ f ih =>
      intro k sig q hq
      by_cases hs : sig = true
      · simp only [retry_loop, if_pos hs] at hq
        rcases List.mem_cons.mp hq with h | h
        · rw [h]
        · exact ih (k + 1) (roundErr k) q h
      · simp [retry_loop, hs] at hq

/-- A provisioned sweep from at least two levels schedules at least two
bursts. -/
theorem bursts_two_le (pc cool : Nat) :
    2 ≤ (bursts (bwfp_trace (pc + 2) cool)).length := by
  simp [bwfp_trace, tc_loop, bursts, List.filterMap_append]

/-- If the first round of a burst schedule of length at least 2 fails, the
claimed halting property is violated. -/
theorem halts_after_error_false (roundErr : Nat → Bool) (bs : List Nat)
    (h2 : 2 ≤ bs.length) (h0 : roundErr 0 = true) :
    halts_after_error roundErr bs = false := by
  cases h : halts_after_error roundErr bs
  · rfl
  · exfalso
    have h1 : (1 : Nat) ∈ List.range bs.length := by
      rw [List.mem_range]; omega
    have := (List.all_eq_true.mp h) 1 h1
    simp [List.range_succ, h0] at this

/-! ### Claim theorems -/

/-- Claim C6 (confirmed): for every call
`benchmark_warm_at_fixed_provision maxP cool`, the executed schedule is
exactly the spec's: for each provisioned level `pc` stepping down from
`maxP` to 1 and each test concurrency `tc` stepping down from `pc` to 1, one
warm burst of size `pc` then exactly 3 test bursts of size `tc`, with a
`cool`-minute sleep after each level's `tc` values are exhausted.  Rounds are
sequential, so each burst completes before the next begins. -/
theorem provision_sweep_schedule (maxP cool : Nat) :
    bwfp_trace maxP cool = bwfp_spec_trace maxP cool := by
  induction maxP with
  | zero => rfl
  | succ pc ih =>
      rw [bwfp_trace, tc_loop_eq_spec, ih]
      simp [bwfp_spec_trace, countdown, List.append_assoc]

/-- Claim C6 witness: the schedule equality evaluated at a concrete sweep. -/
theorem provision_sweep_schedule_witness :
    bwfp_trace 3 2 = bwfp_spec_trace 3 2 :=
  provision_sweep_schedule 3 2

/-- Claim C2 (corrected): a failing task of `send_con_req` is only reported
by `handle_error` printing its error; no task of `send_con_req` writes any
shared error flag, so an error signal keeps its prior value when the round
returns even when tasks fail. -/
theorem send_con_req_error_reporting :
    (∀ (num : Nat) (taskErr : Nat → Option String) (init : Bool),
        error_signal_after init (send_con_req_effs num taskErr) = init)
    ∧ (∀ (num id : Nat) (taskErr : Nat → Option String),
        id < num → (taskErr id).isSome →
        TaskEff.printedErr id ∈ send_con_req_effs num taskErr) := by
  constructor
  · intro num taskErr init
    have hnone : (send_con_req_effs num taskErr).any is_set_error_signal = false := by
      rw [List.any_eq_false]
      intro e he
      simp only [send_con_req_effs, List.mem_flatMap] at he
      obtain ⟨id, _, he2⟩ := he
      by_cases h : handle_error (taskErr id) = true
      · simp only [send_task_effs, if_pos h, List.mem_singleton] at he2
        rw [he2]
        simp [is_set_error_signal]
      · simp [send_task_effs, h] at he2
    rw [error_signal_after, hnone, Bool.or_false]
  · intro num id taskErr hid herr
    simp only [send_con_req_effs, List.mem_flatMap]
    refine ⟨id, List.mem_range.mpr hid, ?_⟩
    cases h : taskErr id with
    | none => rw [h] at herr; simp at herr
    | some e => simp [send_task_effs, handle_error, h]

/-- Claim C2 witness: a single-task round whose task fails leaves the error
signal false and prints the error. -/
theorem send_con_req_error_reporting_witness :
    TaskEff.printedErr 0 ∈ send_con_req_effs 2 (fun _ => some "boom") :=
  send_con_req_error_reporting.2 2 0 (fun _ => some "boom") (by decide) (by decide)

/-- Claim C2 counterexample: a 1-task round whose only task fails yields just
the printed error, and the error signal stays false when the round returns -
refuting "ErrorSignal is set by the time the round returns". -/
theorem send_con_req_no_error_signal_cex :
    send_con_req_effs 1 (fun _ => some "boom") = [TaskEff.printedErr 0] ∧
      error_signal_after false (send_con_req_effs 1 (fun _ => some "boom")) = false := by
  constructor
  · rfl
  · rfl

/-- Claim C8 (corrected): a `client.Init()` error is printed and the process
exits with code -1 before any benchmark work; but a `UserRequest.Load` error
is discarded by `main` (its return value is ignored), so the run proceeds to
the benchmarks whatever the load outcome. -/
theorem main_setup_failure_handling :
    (∀ (e : String) (loadErr : Option String),
        main_trace (some e) loadErr = [MainStep.printedErr e, MainStep.exitProc (-1)])
    ∧ (∀ loadErr : Option String,
        main_trace none loadErr =
          [MainStep.runBench "crtw-tflm-mb-4" 20 2,
           MainStep.runBench "crtw-tflm-mb-1" 20 2]) :=
  ⟨fun _ _ => rfl, fun _ => rfl⟩

/-- Claim C8 counterexample: with a failing payload load and a healthy
client, the run still performs benchmark work and never exits - refuting
"a request-payload load error is fatal and the process exits before any
benchmark work". -/
theorem main_load_error_ignored_cex :
    ((main_trace none (some "read failed")).any
        (fun s => match s with
          | MainStep.runBench _ _ _ => true
          | _ => false) = true)
    ∧ ((main_trace none (some "read failed")).any
        (fun s => match s with
          | MainStep.exitProc _ => true
          | _ => false) = false) := by
  constructor
  · rfl
  · rfl

/-- Claim C8 witness: the Init-failure half evaluated concretely. -/
theorem main_setup_failure_handling_witness :
    main_trace (some "connection refused") none =
      [MainStep.printedErr "connection refused", MainStep.exitProc (-1)] :=
  main_setup_failure_handling.1 "connection refused" none

/-- Claim C9 (confirmed): at the start of every round of concurrent work the
error flag is false before any task is dispatched - in the rate sweep each
executed step enters with `has_error = 0` (it is initialised to 0 and a step
that sets it halts the sweep), and in the older driver's retry loop each
round explicitly resets `has_error` to 0 before dispatching. -/
theorem round_start_error_flag_false :
    (∀ (fuel : Nat) (tr endr step : Int) (errAt : Int → Bool) (p : Int × Bool),
        p ∈ sweep_loop endr step errAt fuel tr false → p.2 = false)
    ∧ (∀ (fuel k : Nat) (roundErr : Nat → Bool) (sig : Bool) (q : Nat × Bool),
        q ∈ retry_loop roundErr fuel k sig → q.2 = false) :=
  ⟨fun fuel tr endr step errAt p hp =>
      sweep_loop_sig_false endr step errAt fuel tr p hp,
   fun fuel k roundErr sig q hq => retry_loop_sig_false roundErr fuel k sig q hq⟩

/-- Claim C9 witness: the flag recorded at the entry of the second step of a
concrete three-step sweep is false. -/
theorem round_start_error_flag_false_witness :
    ((1 : Int), false).2 = false :=
  round_start_error_flag_false.1 3 0 2 1 (fun _ => false) ((1 : Int), false) (by decide)

/-- Claim C1 (corrected): the rate sweep `benchmark_step_warm_lat` does halt
early - every executed step except possibly the last had no failing task, so
no step runs after one that set `has_error`.  The provisioned sweep
`benchmark_warm_at_fixed_provision`, however, declares and reads no error
flag: whenever a task of any round before its final burst fails (which per
the spec sets ErrorSignal), later bursts still execute, violating the
claimed halting. -/
theorem benchmark_sweeps_error_halt :
    (∀ (fuel : Nat) (tr endr step : Int) (errAt : Int → Bool) (i : Nat) (p : Int × Bool),
        (sweep_loop endr step errAt fuel tr false)[i]? = some p →
        i + 1 < (sweep_loop endr step errAt fuel tr false).length →
        errAt p.1 = false)
    ∧ (∀ (pcRight cool : Nat) (roundErr : Nat → Bool),
        2 ≤ pcRight → roundErr 0 = true →
        halts_after_error roundErr (bursts (bwfp_trace pcRight cool)) = false) := by
  constructor
  · intro fuel tr endr step errAt i p hp hlen
    exact sweep_loop_no_error_before_last endr step errAt fuel tr false i p hp hlen
  · intro pcRight cool roundErr h2 h0
    obtain ⟨pc, rfl⟩ : ∃ pc, pcRight = pc + 2 := ⟨pcRight - 2, by omega⟩
    exact halts_after_error_false roundErr _ (bursts_two_le pc cool) h0

/-- Claim C1 witness: the rate-sweep half applied to a concrete sweep whose
second step fails - the first step is certified error-free. -/
theorem benchmark_sweeps_error_halt_witness :
    (fun r : Int => decide (1 ≤ r)) (((0 : Int), false).1) = false :=
  benchmark_sweeps_error_halt.1 3 0 2 1 (fun r => decide (1 ≤ r)) 0 ((0 : Int), false)
    (by decide) (by decide)

/-- Claim C1 counterexample: with maxProvisioned = 2, cooldown = 0 and a
failing task in the very first round (which per the spec sets ErrorSignal),
the provisioned sweep still executes all its later bursts: the claimed
"no further bursts after ErrorSignal is observed set" is false. -/
theorem provision_sweep_ignores_error_cex :
    halts_after_error (fun _ => true) (bursts (bwfp_trace 2 0)) = false := by
  decide

/-- Helper for the `warm_up` ramp: with a positive `step` and enough fuel,
the collected rate list is the arithmetic progression from `rate`, every
element is below the bound, and the progression is maximal (the next rate
would reach the bound). -/
theorem warm_up_rates_aux_spec (step bound : Int) (hs : 1 ≤ step) :
    ∀ (fuel : Nat) (rate : Int), (bound - rate).toNat ≤ fuel →
      (∀ i : Nat, i < (warm_up_rates_aux step bound fuel rate).length →
          (warm_up_rates_aux step bound fuel rate)[i]? = some (rate + step * i) ∧
            rate + step * i < bound)
      ∧ bound ≤ rate + step * (warm_up_rates_aux step bound fuel rate).length := by
  intro fuel
  induction fuel with
  | zero =>
      intro rate hf
      constructor
      · intro i h
        simp [warm_up_rates_aux] at h
      · simp only [warm_up_rates_aux, List.length_nil, Nat.cast_zero, mul_zero, add_zero]
        omega
  | succ f ih =>
      intro rate hf
      by_cases hr : rate < bound
      · have hf2 : (bound - (rate + step)).toNat ≤ f := by omega
        obtain ⟨ihget, ihbound⟩ := ih (rate + step) hf2
        constructor
        · intro i h
          simp only [warm_up_rates_aux, if_pos hr] at h ⊢
          cases i with
          | zero =>
              simp only [List.getElem?_cons_zero, Nat.cast_zero, mul_zero, add_zero]
              exact ⟨trivial, hr⟩
          | succ j =>
              have hj : j < (warm_up_rates_aux step bound f (rate + step)).length := by
                simp at h
                omega
              obtain ⟨hg, hb⟩ := ihget j hj
              constructor
              · rw [List.getElem?_cons_succ, hg]
                have : rate + step * ((j : Int) + 1) = rate + step + step * j := by ring
                push_cast
                rw [this]
              · have : rate + step * ((j : Int) + 1) = rate + step + step * j := by ring
                push_cast
                rw [this]
                exact hb
        · simp only [warm_up_rates_aux, if_pos hr, List.length_cons]
          calc bound ≤ rate + step + step * (warm_up_rates_aux step bound f (rate + step)).length :=
                ihbound
            _ = rate + step * (((warm_up_rates_aux step bound f (rate + step)).length + 1 : Nat) : Int) := by
                push_cast
                ring
      · constructor
        · intro i h
          simp [warm_up_rates_aux, hr] at h
        · simp only [warm_up_rates_aux, if_neg hr, List.length_nil, Nat.cast_zero, mul_zero,
            add_zero]
          omega

/-- Claim C4 (corrected): for `1 ≤ step`, `warm_up start step target`
executes `send_con_req` at exactly the rates `start, start + step, ...`
while the rate is below `target + 2*step` (each entry of the trace is
`start + step * i`, each is below the bound, and the trace is maximal); in
particular `warm_up 0 4 16` executes rounds of sizes 0, 4, 8, 12, 16, 20 -
including the initial size-0 round the claim's concrete list omits. -/
theorem warm_up_ramp_schedule (start step target : Int) (hs : 1 ≤ step) :
    (∀ i : Nat, i < (warm_up_rates start step target).length →
        (warm_up_rates start step target)[i]? = some (start + step * i) ∧
          start + step * i < target + 2 * step)
    ∧ target + 2 * step ≤ start + step * (warm_up_rates start step target).length
    ∧ warm_up_rates 0 4 16 = [0, 4, 8, 12, 16, 20] := by
  obtain ⟨hget, hbound⟩ :=
    warm_up_rates_aux_spec step (target + 2 * step) hs
      (target + 2 * step - start).toNat start (le_refl _)
  exact ⟨hget, hbound, by decide⟩

/-- Claim C4 witness: the concrete ramp evaluated through the theorem. -/
theorem warm_up_ramp_schedule_witness :
    warm_up_rates 0 4 16 = [0, 4, 8, 12, 16, 20] :=
  (warm_up_ramp_schedule 0 4 16 (by decide)).2.2

/-- Claim C4 counterexample: `warm_up 0 4 16` executes the size-0 round
first, so its round sizes are not the claimed `[4, 8, 12, 16, 20]`. -/
theorem warm_up_zero_round_cex :
    warm_up_rates 0 4 16 = [0, 4, 8, 12, 16, 20] ∧
      ([0, 4, 8, 12, 16, 20] : List Int) ≠ [4, 8, 12, 16, 20] := by
  constructor
  · decide
  · decide

/-- Helper: one 404 iteration with budget left consumes one fetch, one sleep
and one unit of budget. -/
theorem getResultLoop_step (fetch : Nat → FetchOutcome) (n idx f s : Nat) (x : String) :
    getResultLoop fetch (n + 2) idx (some ⟨"404 Not Found"⟩) (some x) f s =
      getResultLoop fetch (n + 1) (idx + 1) (fetch idx).resp (fetch idx).err
        (f + 1) (s + 1) := by
  simp [getResultLoop]

/-- Helper for `GetResult` under an all-404 oracle: from a 404 state with
`n + 2` budget left, the loop performs `n + 2` more fetches and `n + 1` more
sleeps, logs the exhaustion, and ends on the outcome of the last fetch. -/
theorem getResultLoop_all404 (fetch : Nat → FetchOutcome) (e : Nat → String)
    (h : ∀ n, fetch n = ⟨some ⟨"404 Not Found"⟩, some (e n)⟩) :
    ∀ (n idx f s : Nat) (x : String),
      getResultLoop fetch (n + 2) idx (some ⟨"404 Not Found"⟩) (some x) f s =
        some ⟨f + n + 2, s + n + 1, true, some ⟨"404 Not Found"⟩, some (e (idx + n + 1))⟩ := by
  intro n
  induction n with
  | zero =>
      intro idx f s x
      simp [getResultLoop, h idx, h (idx + 1)]
  | succ m ih =>
      intro idx f s x
      rw [getResultLoop_step fetch (m + 1) idx f s x]
      simp only [h idx]
      have hm : m + 1 + 1 = m + 2 := by omega
      rw [hm, ih (idx + 1) (f + 1) (s + 1) (e idx)]
      have h1 : f + 1 + m + 2 = f + (m + 1) + 2 := by omega
      have h2 : s + 1 + m + 1 = s + (m + 1) + 1 := by omega
      have h3 : idx + 1 + m + 1 = idx + (m + 1) + 1 := by omega
      rw [h1, h2, h3]

/-- Helper: wherever the retry loop returns a value, the number of fetches it
has performed is bounded - the loop cannot run forever. -/
theorem getResultLoop_fetch_bound (fetch : Nat → FetchOutcome) :
    ∀ (rc idx : Nat) (resp : Option ActivationResp) (err : Option String)
      (f s : Nat) (g : GetResultFinal),
      getResultLoop fetch rc idx resp err f s = some g →
      g.fetches ≤ f + max rc 1 := by
  intro rc
  induction rc with
  | zero =>
      intro idx resp err f s g hg
      cases err with
      | none =>
          simp only [getResultLoop] at hg
          cases hg
          dsimp only
          omega
      | some e2 =>
          cases resp with
          | none => simp [getResultLoop] at hg
          | some r =>
              by_cases h404 : r.status = "404 Not Found"
              · simp only [getResultLoop, if_pos h404] at hg
                cases hg
                dsimp only
                omega
              · simp only [getResultLoop, if_neg h404] at hg
                cases hg
                dsimp only
                omega
  | succ n ih =>
      intro idx resp err f s g hg
      cases err with
      | none =>
          simp only [getResultLoop] at hg
          cases hg
          dsimp only
          omega
      | some e2 =>
          cases resp with
          | none => simp [getResultLoop] at hg
          | some r =>
              by_cases h404 : r.status = "404 Not Found"
              · cases n with
                | zero =>
                    norm_num at hg
                    simp only [getResultLoop, if_pos h404] at hg
                    cases hg
                    dsimp only
                    omega
                | succ m =>
                    simp only [getResultLoop, if_pos h404] at hg
                    have := ih (idx + 1) (fetch idx).resp (fetch idx).err (f + 1) (s + 1) g hg
                    omega
              · rw [getResultLoop.eq_def] at hg
                dsimp only at hg
                rw [if_neg h404] at hg
                cases hg
                dsimp only
                omega

/-- Helper: when every failing fetch carries a response object, the retry
loop never performs the nil `Status` access. -/
theorem getResultLoop_total (fetch : Nat → FetchOutcome)
    (hf : ∀ n, (fetch n).err.isSome → (fetch n).resp.isSome) :
    ∀ (rc idx : Nat) (resp : Option ActivationResp) (err : Option String) (f s : Nat),
      (err.isSome → resp.isSome) →
      (getResultLoop fetch rc idx resp err f s).isSome := by
  intro rc
  induction rc with
  | zero =>
      intro idx resp err f s hcur
      cases err with
      | none => simp [getResultLoop]
      | some e2 =>
          cases resp with
          | none => simp at hcur
          | some r => by_cases h404 : r.status = "404 Not Found" <;> simp [getResultLoop, h404]
  | succ n ih =>
      intro idx resp err f s hcur
      cases err with
      | none => simp [getResultLoop]
      | some e2 =>
          cases resp with
          | none => simp at hcur
          | some r =>
              by_cases h404 : r.status = "404 Not Found"
              · cases n with
                | zero => simp [getResultLoop, h404]
                | succ m =>
                    simp only [getResultLoop, if_pos h404]
                    exact ih (idx + 1) (fetch idx).resp (fetch idx).err (f + 1) (s + 1) (hf idx)
              · rw [getResultLoop.eq_def]
                dsimp only
                rw [if_neg h404]
                simp

/-- Claim C3 (confirmed): when every fetch reports the 404 "not found yet"
condition, `GetResult` performs exactly 19 fetches (1 initial + the fixed
retry budget of 18), logs "exhausted retries", and returns the error of the
last fetch; moreover on every input the loop returns after at most 19
fetches - it never loops forever. -/
theorem GetResult_retry_exhaustion (fetch : Nat → FetchOutcome) (e : Nat → String)
    (h : ∀ n, fetch n = ⟨some ⟨"404 Not Found"⟩, some (e n)⟩) :
    GetResult fetch =
      some ⟨19, 17, true, some ⟨"404 Not Found"⟩, some (e 18)⟩ ∧
    ∀ (fetch2 : Nat → FetchOutcome) (g : GetResultFinal),
      GetResult fetch2 = some g → g.fetches ≤ 19 := by
  constructor
  · rw [GetResult, h 0]
    rw [show (18 : Nat) = 16 + 2 from by norm_num]
    rw [getResultLoop_all404 fetch e h 16 1 1 0 (e 0)]
  · intro fetch2 g hg
    have := getResultLoop_fetch_bound fetch2 18 1 (fetch2 0).resp (fetch2 0).err 1 0 g hg
    omega

/-- Claim C3 witness: the exhaustion run evaluated on a concrete all-404
oracle. -/
theorem GetResult_retry_exhaustion_witness :
    GetResult (fun _ => ⟨some ⟨"404 Not Found"⟩, some "pending"⟩) =
      some ⟨19, 17, true, some ⟨"404 Not Found"⟩, some "pending"⟩ :=
  (GetResult_retry_exhaustion (fun _ => ⟨some ⟨"404 Not Found"⟩, some "pending"⟩)
    (fun _ => "pending") (fun _ => rfl)).1

/-- Claim C7 (confirmed): when the first fetch fails with a response whose
status is not the 404 "not found yet" condition, `GetResult` returns that
error after exactly 1 fetch and 0 inter-attempt sleeps. -/
theorem GetResult_non404_immediate (fetch : Nat → FetchOutcome)
    (r : ActivationResp) (e : String)
    (hs : r.status ≠ "404 Not Found") (h0 : fetch 0 = ⟨some r, some e⟩) :
    GetResult fetch = some ⟨1, 0, false, some r, some e⟩ := by
  rw [GetResult, h0]
  simp [getResultLoop, hs]

/-- Claim C7 witness: an immediate return on a concrete non-404 failure. -/
theorem GetResult_non404_immediate_witness :
    GetResult (fun _ => ⟨some ⟨"502 Bad Gateway"⟩, some "boom"⟩) =
      some ⟨1, 0, false, some ⟨"502 Bad Gateway"⟩, some "boom"⟩ :=
  GetResult_non404_immediate (fun _ => ⟨some ⟨"502 Bad Gateway"⟩, some "boom"⟩)
    ⟨"502 Bad Gateway"⟩ "boom" (by decide) rfl

/-- Claim C10 (confirmed): `GetResult` reads `resp.Status` on the error path
without a presence check - under the precondition that every failing fetch
carries a response object, `GetResult` is total (the undefined access is
unreachable); without it, a failing fetch with an absent response makes the
run hit the undefined (nil-pointer) access. -/
theorem GetResult_nil_response_safety :
    (∀ fetch : Nat → FetchOutcome,
        (∀ n, (fetch n).err.isSome → (fetch n).resp.isSome) →
        (GetResult fetch).isSome)
    ∧ (∃ fetch : Nat → FetchOutcome,
        (fetch 0).err.isSome ∧ (fetch 0).resp = none ∧ GetResult fetch = none) := by
  constructor
  · intro fetch hf
    exact getResultLoop_total fetch hf 18 1 (fetch 0).resp (fetch 0).err 1 0 (hf 0)
  · exact ⟨fun _ => ⟨none, some "boom"⟩, rfl, rfl, by rw [GetResult, getResultLoop.eq_def]⟩

/-- Claim C10 witness: the totality half evaluated on a concrete oracle whose
fetches never fail. -/
theorem GetResult_nil_response_safety_witness :
    (GetResult (fun _ => ⟨some ⟨"200 OK"⟩, none⟩)).isSome :=
  GetResult_nil_response_safety.1 (fun _ => ⟨some ⟨"200 OK"⟩, none⟩)
    (fun n h => by simp at h)

end OwBench
